import Mathlib

/-
Verification of the session / turn-coordination layer of the voice_audio
repository, shallowly embedded from:
  voice/voice_class.py  (Speaker, Listener, Conversation)
  voice/vosk_server.py  (VoskServer remote control service)
Machine times (time.time()) are modelled as Nat; strings are Lean Strings;
Python substring tests (`a in b`) are modelled on character lists.
-/

namespace VoiceAudio

/-- Message roles.  The Python code keys the `Conversation.messages` dict by the
two strings "user" and "assistant"; every call site passes one of them. -/
inductive Role
  | user
  | assistant
deriving DecidableEq

/-- One transcript record, as built in `Conversation.append_message`
(voice_class.py:314): `{"role": role, "content": content, "msg_timestamp": time.time()}`. -/
structure Message where
  role : Role
  content : String
  msg_timestamp : Nat
deriving DecidableEq

/-- In-memory conversation store (voice_class.py:296-304): the
`messages` dict with its two keys split into two list fields, plus the two
per-role counters. -/
structure Conversation where
  user_messages : List Message
  assistant_messages : List Message
  msg_count_user : Nat
  msg_count_assistant : Nat
deriving DecidableEq

/-- Fresh store as built by `Conversation.__init__` (voice_class.py:301-304). -/
def Conversation.init : Conversation := ⟨[], [], 0, 0⟩

/-- The role-indexed view of the `messages` dict. -/
def Conversation.msgs (c : Conversation) : Role → List Message
  | Role.user => c.user_messages
  | Role.assistant => c.assistant_messages

/-- Models `Conversation.append_message` (voice_class.py:306-324): build the
record, append it to the role's list, bump that role's counter.  The colored
print and the persistence thread spawn carry no in-memory state; persistence is
modelled separately. -/
def Conversation.append_message (c : Conversation) (role : Role) (content : String)
    (ts : Nat) : Conversation :=
  let msg : Message := ⟨role, content, ts⟩
  match role with
  | Role.user =>
      { c with user_messages := c.user_messages ++ [msg],
               msg_count_user := c.msg_count_user + 1 }
  | Role.assistant =>
      { c with assistant_messages := c.assistant_messages ++ [msg],
               msg_count_assistant := c.msg_count_assistant + 1 }

/-- Models `Conversation.get_last_n_messages` with a role argument
(voice_class.py:349-351): `msgs[-n:] if msgs else []`.  Python slice
semantics: `msgs[-0:]` is `msgs[0:]`, the whole list; for `n ≥ 1`,
`msgs[-n:]` is the last `min n (len msgs)` elements, which is
`msgs.drop (msgs.length - n)` with truncated Nat subtraction.  Every call
site in the repository passes a non-negative `n`, so `n : Nat`. -/
def Conversation.get_last_n_messages (c : Conversation) (role : Role) (n : Nat) :
    List Message :=
  let msgs := c.msgs role
  if msgs.isEmpty then []
  else if n = 0 then msgs
  else msgs.drop (msgs.length - n)

/-- Replay of a finite sequence of `append_message` calls
(role, content, timestamp). -/
def runAppends (c : Conversation) : List (Role × String × Nat) → Conversation
  | [] => c
  | (r, t, ts) :: rest => runAppends (c.append_message r t ts) rest

/-- Whether the second character list starts with the first. -/
def startsWithChars : List Char → List Char → Bool
  | [], _ => true
  | _ :: _, [] => false
  | a :: as, b :: bs => a == b && startsWithChars as bs

/-- Whether `needle` occurs contiguously inside the second list. -/
def containsChars (needle : List Char) : List Char → Bool
  | [] => needle.isEmpty
  | b :: bs => startsWithChars needle (b :: bs) || containsChars needle bs

/-- Models the Python substring test `needle in hay` on strings, via the
underlying character lists. -/
def strContains (hay needle : String) : Bool :=
  containsChars needle.toList hay.toList

/-- `PAUSE_COMMANDS` (voice_class.py:29-34), the fixed pause-phrase set. -/
def PAUSE_COMMANDS : List String :=
  ["stop recording", "stop listening", "end recording", "end listening",
   "okay thanks", "okay bye", "thank you bye", "thanks bye", "alright thanks",
   "alright bye", "forget it bye", "that\x27s all bye", "okay that\x27s it",
   "okay that\x27s all", "hold it"]

/-- `EXIT_COMMANDS` (voice_class.py:36-39), the fixed exit-phrase set. -/
def EXIT_COMMANDS : List String :=
  ["over and out", "thank you and good bye", "good bye", "exit", "quit",
   "thank you and goodbye", "goodbye"]

/-- `INVALID_TERMS` (voice_class.py:40), filler words never treated as content. -/
def INVALID_TERMS : List String := ["the", "I"]

/-- Outcome of `Listener.is_valid_text` (voice_class.py:242-269), together with
the side effects it performs.
  `validText` : returned `True`; the capture loop appends the fragment as a
    user message and resets the silence timer.
  `pauseStop` : a pause phrase is a substring of the fragment; sets
    `self.recording = False`, returns `False`.
  `exitStop`  : the fragment is a substring of an exit phrase; sets
    `self.running = False` and invokes the shutdown callback, returns `False`.
  `timeoutStop` : empty/filler fragment and the silence timeout elapsed; sets
    `self.recording = False`.
  `skipChunk` : empty/filler fragment, no timeout; falls through (returns None). -/
inductive MidAction
  | validText
  | pauseStop
  | exitStop
  | timeoutStop
  | skipChunk
deriving DecidableEq

/-- Models `Listener.is_valid_text` (voice_class.py:242-269).  `text` is
`self.text`; `timedOut` is the value of
`time.time() - self.last_speech_time > self.timeout`, computed by the caller
of this pure rendering.  Mirrors the source's check order: content check
first, then pause (`cmd in self.text`), then exit (`self.text in cmd`),
and the timeout branch only for empty/filler fragments. -/
def is_valid_text (text : String) (timedOut : Bool) : MidAction :=
  if (text != "") && !(INVALID_TERMS.contains text) then
    if PAUSE_COMMANDS.any (fun cmd => strContains text cmd) then MidAction.pauseStop
    else if EXIT_COMMANDS.any (fun cmd => strContains cmd text) then MidAction.exitStop
    else MidAction.validText
  else if timedOut then MidAction.timeoutStop
  else MidAction.skipChunk

/-- Mutable fields of `Listener` that the capture loop touches
(voice_class.py:119-122), plus the configured silence timeout and a flag
recording that `self.shutdown_callback()` was invoked. -/
structure LState where
  running : Bool
  recording : Bool
  conv : Conversation
  last_speech_time : Nat
  shutdownInvoked : Bool
  timeout : Nat
deriving DecidableEq

/-- One loop iteration's recognizer outcome for one audio chunk.  `now` is the
wall clock when the chunk is processed; `recog = none` models the recognizer
call raising an exception; `recog = some t` models
`AcceptWaveform`/`Result` yielding text `t` (with `t = ""` both for a
non-final chunk and for a final result with empty text). -/
structure Chunk where
  now : Nat
  recog : Option String
deriving DecidableEq

/-- Errors that can escape `Listener.record_audio`; the source has no
try/except (voice_class.py:178-217), so any exception propagates and kills
the recording thread. -/
inductive VErr
  | deviceOpen
  | recognition
deriving DecidableEq

/-- Models the `while self.running and self.recording` loop of
`Listener.record_audio` (voice_class.py:192-202).  Each iteration: gate on
the speaking flag (inter-thread; modelled separately by the trace model
below), read one chunk, feed the recognizer, then classify via
`is_valid_text` and on success append the fragment as a user message and
reset the silence timer.  A recognizer exception propagates: the loop (and
thread) dies with the state as it stands and the remaining chunks unread. -/
def record_loop : LState → List Chunk → LState × Option VErr
  | st, [] => (st, none)
  | st, ch :: rest =>
    if st.running && st.recording then
      match ch.recog with
      | none => (st, some VErr.recognition)
      | some t =>
        match is_valid_text t (decide (ch.now - st.last_speech_time > st.timeout)) with
        | MidAction.validText =>
            record_loop { st with conv := st.conv.append_message Role.user t ch.now,
                                  last_speech_time := ch.now } rest
        | MidAction.pauseStop => record_loop { st with recording := false } rest
        | MidAction.exitStop =>
            record_loop { st with running := false, shutdownInvoked := true } rest
        | MidAction.timeoutStop => record_loop { st with recording := false } rest
        | MidAction.skipChunk => record_loop st rest
    else (st, none)

/-- Models the final-flush lines of `Listener.record_audio`
(voice_class.py:209-211): after the stream is closed, take
`FinalResult()`'s text and append it as a user message whenever it is
non-empty and not a filler word — with no pause/exit phrase check. -/
def flush_final (c : Conversation) (final_text : String) (ts : Nat) : Conversation :=
  if (final_text != "") && !(INVALID_TERMS.contains final_text) then
    c.append_message Role.user final_text ts
  else c

/-- Models `Listener.cleanup` (voice_class.py:271-280), the exit/pause-aware
flush variant that appends the "/bye" sentinel on an exit phrase and drops
pause phrases.  No caller of this method exists in the repository. -/
def cleanup_flush (c : Conversation) (final_text : String) (ts : Nat) : Conversation :=
  if (final_text != "") && !(INVALID_TERMS.contains final_text) then
    if EXIT_COMMANDS.any (fun cmd => strContains cmd final_text) then
      c.append_message Role.user "/bye" ts
    else if PAUSE_COMMANDS.any (fun cmd => strContains final_text cmd) then c
    else c.append_message Role.user final_text ts
  else c

/-- Models `Listener.record_audio` (voice_class.py:178-217) end to end:
early return when not running/recording; `audio.open` (whose failure
propagates, `openOk = false`); `self.last_speech_time = time.time()`
(`startTime`); the chunk loop; then, only if the loop finished without an
exception, the stream teardown and the final flush (`final_text` is
`FinalResult()`'s text at wall clock `flushTs`).  GUI, sounds, `save_audio`
and the recognizer reset carry no state modelled here. -/
def record_audio (st : LState) (openOk : Bool) (startTime : Nat)
    (chunks : List Chunk) (final_text : String) (flushTs : Nat) :
    LState × Option VErr :=
  if !(st.running && st.recording) then (st, none)
  else if !openOk then (st, some VErr.deviceOpen)
  else
    match record_loop { st with last_speech_time := startTime } chunks with
    | (st2, some e) => (st2, some e)
    | (st2, none) =>
        ({ st2 with conv := flush_final st2.conv final_text flushTs }, none)

/-- Recording state machine phases.  In the source the only stored datum is
the boolean `Listener.recording`: it is `True` exactly from
`start_recording` (voice_class.py:164) until `is_valid_text` or
`pause_recording` clears it; `draining` names the window where the flag is
already `False` but the capture thread is still executing its cleanup
sequence — stream close, final flush, audio save (voice_class.py:204-217).
`idle` is flag `False` with no capture thread alive. -/
inductive RecState
  | idle
  | recording
  | draining
deriving DecidableEq

/-- The value of `self.app.listener.recording` in each phase. -/
def recordingFlag : RecState → Bool
  | RecState.recording => true
  | _ => false

/-- Mutable state of `VoskServer` (vosk_server.py:36-42) relevant to the
remote control protocol: the session baseline (`None` until a start is
accepted), the `is_listening` in-flight marker, the shared conversation, and
the listener's phase. -/
structure ServerState where
  recState : RecState
  listen_start_user_count : Option Nat
  is_listening : Bool
  conv : Conversation
deriving DecidableEq

/-- Server state at process start (vosk_server.py:37-41). -/
def ServerState.init : ServerState := ⟨RecState.idle, none, false, Conversation.init⟩

/-- Models `VoskServer.trigger_listen` (vosk_server.py:48-56), the body run
under `listening_lock`: if no start is in flight and the listener's
`recording` flag is clear, record the baseline from the current user count
and toggle recording (which, not recording, runs `start_recording`: sets the
flag and launches one capture thread).  `is_listening` is set and then
cleared again before the call returns, so its stored value is unchanged. -/
def trigger_listen (s : ServerState) : ServerState :=
  if !s.is_listening && !(recordingFlag s.recState) then
    { s with listen_start_user_count := some s.conv.msg_count_user,
             recState := RecState.recording }
  else s

/-- A valid user utterance appended by the live capture loop
(voice_class.py:200-202), seen at the server level. -/
def capture_append (s : ServerState) (text : String) (ts : Nat) : ServerState :=
  { s with conv := s.conv.append_message Role.user text ts }

/-- The `recording` flag being cleared while the capture thread is still
alive — by a pause phrase or timeout in `is_valid_text`
(voice_class.py:255,268) or by `pause_recording` (voice_class.py:175) —
which puts the machine in the draining phase. -/
def begin_drain (s : ServerState) : ServerState :=
  if s.recState = RecState.recording then { s with recState := RecState.draining }
  else s

/-- The draining capture thread finishing its cleanup: the final flush
(voice_class.py:209-211) lands `final_text` per `flush_final` and the
thread exits, leaving the machine idle. -/
def finish_drain (s : ServerState) (final_text : String) (ts : Nat) : ServerState :=
  if s.recState = RecState.draining then
    { s with recState := RecState.idle,
             conv := flush_final s.conv final_text ts }
  else s

/-- Models `VoskServer.hold_listen` (vosk_server.py:58-63): if the
`recording` flag is set, `toggle_recording` runs `pause_recording`, which
clears the flag and joins the capture thread through its entire cleanup
(voice_class.py:170-176), so the drain completes before the call returns.
The baseline is deliberately not touched. -/
def hold_listen (s : ServerState) (final_text : String) (ts : Nat) : ServerState :=
  if recordingFlag s.recState then finish_drain (begin_drain s) final_text ts
  else s

/-- Models Python `x or 0` as used on the baseline
(vosk_server.py:66): `None` is falsy and yields `0`; the int `0` is also
falsy and yields the second operand `0`, the same value; any other count is
returned unchanged. -/
def pyOrZero : Option Nat → Nat
  | none => 0
  | some n => n

/-- Models `VoskServer.get_session_user_messages` (vosk_server.py:65-75):
`n = curr - start` is a Python int and the guard is `n > 0`; with truncated
Nat subtraction both `n ≤ 0` cases land in the `0` value, so the guard
`curr - start > 0` coincides. -/
def get_session_user_messages (s : ServerState) : List Message :=
  let start := pyOrZero s.listen_start_user_count
  let curr := s.conv.msg_count_user
  if curr - start > 0 then s.conv.get_last_n_messages Role.user (curr - start)
  else []

/-- Models the `/result` endpoint (vosk_server.py:88-96): if the listener's
`recording` flag is clear, answer with the session's user messages,
otherwise answer `null`. -/
def result_query (s : ServerState) : Option (List Message) :=
  if !(recordingFlag s.recState) then some (get_session_user_messages s)
  else none

/-- Position of the capture loop within one iteration of its
gate/read/classify cycle (voice_class.py:192-202). -/
inductive LPC
  | atGate
  | atRead
  | atClassify
deriving DecidableEq

/-- Shared-flag trace model for the anti-feedback gate.  `flag` is
`GLOBAL_SPEAKING_FLAG` (voice_class.py:58), written by `Speaker.speak`
(voice_class.py:67-74) and polled by `Listener.hold_while_speaking`
(voice_class.py:226-232).  `readFlag` records the flag's value at the
moment the pending chunk was read; `crossTalk` latches once a chunk read
with the flag set has been classified; `windowSet` records that the flag
was set since the loop last passed the gate; `cleanRun` latches false once
some chunk was read after a flag-set inside its own gate window. -/
structure SysState where
  flag : Bool
  pc : LPC
  readFlag : Bool
  crossTalk : Bool
  windowSet : Bool
  cleanRun : Bool
deriving DecidableEq

/-- Initial trace-model state: flag clear, loop at its gate. -/
def SysState.init : SysState := ⟨false, LPC.atGate, false, false, false, true⟩

/-- Atomic events of the two threads.  `gatePass` is
`hold_while_speaking` returning, possible only when the flag is observed
clear; `readChunk` is `stream.read` (voice_class.py:194); `classifyChunk`
is the recognizer feed plus `is_valid_text`/append (voice_class.py:195-202);
`setFlag`/`clearFlag` bracket `Speaker.speak` (the `time.sleep` and the
synthesis call between them touch no shared state). -/
inductive TStep
  | gatePass
  | readChunk
  | classifyChunk
  | setFlag
  | clearFlag
deriving DecidableEq

/-- One interleaved step; `none` when the event is not enabled in `s`. -/
def tstep (s : SysState) (e : TStep) : Option SysState :=
  match e with
  | TStep.gatePass =>
      if s.pc = LPC.atGate ∧ s.flag = false then
        some { s with pc := LPC.atRead, windowSet := false }
      else none
  | TStep.readChunk =>
      if s.pc = LPC.atRead then
        some { s with pc := LPC.atClassify, readFlag := s.flag,
                      cleanRun := s.cleanRun && !s.windowSet }
      else none
  | TStep.classifyChunk =>
      if s.pc = LPC.atClassify then
        some { s with pc := LPC.atGate, crossTalk := s.crossTalk || s.readFlag }
      else none
  | TStep.setFlag => some { s with flag := true, windowSet := true }
  | TStep.clearFlag => some { s with flag := false }

/-- Run of an interleaved trace from `s`; `none` if some event was not
enabled. -/
def runT (s : SysState) : List TStep → Option SysState
  | [] => some s
  | e :: rest =>
      match tstep s e with
      | some q => runT q rest
      | none => none

/-- Inductive invariant of the gate trace model: a clean run has no
cross-talk; after a gate pass with no flag-set since, the flag is still
clear; and in a clean run the pending chunk was read with the flag clear. -/
def GateInv (s : SysState) : Prop :=
  (s.cleanRun = true → s.crossTalk = false) ∧
  (s.pc = LPC.atRead → s.windowSet = false → s.flag = false) ∧
  (s.pc = LPC.atClassify → s.cleanRun = true → s.readFlag = false)

/-- One detached persistence task, as spawned per append
(voice_class.py:324): it will read the whole file, append its message, and
rewrite the file.  `snap` holds the contents its `json.load` returned
(`none` before the read); `written` marks its `json.dump` done. -/
structure WTask where
  msg : Message
  snap : Option (List Message)
  written : Bool
deriving DecidableEq

/-- The transcript file plus the persistence tasks in flight. -/
structure PersistState where
  file : List Message
  tasks : List WTask
deriving DecidableEq

/-- Atomic events of `Conversation._save_message_to_file`
(voice_class.py:326-336): task `i`'s file read, and task `i`'s whole-file
rewrite. -/
inductive WEv
  | readFile (i : Nat)
  | writeFile (i : Nat)
deriving DecidableEq

/-- One persistence step; `none` when not enabled (task missing, already
read, or already written). -/
def wstep (p : PersistState) (e : WEv) : Option PersistState :=
  match e with
  | WEv.readFile i =>
      match p.tasks[i]? with
      | some t =>
          if t.snap = none ∧ t.written = false then
            some { p with tasks := p.tasks.set i { t with snap := some p.file } }
          else none
      | none => none
  | WEv.writeFile i =>
      match p.tasks[i]? with
      | some t =>
          match t.snap with
          | some snapshot =>
              if t.written = false then
                some { file := snapshot ++ [t.msg],
                       tasks := p.tasks.set i { t with written := true } }
              else none
          | none => none
      | none => none

/-- Run of an interleaved persistence schedule. -/
def runW (p : PersistState) : List WEv → Option PersistState
  | [] => some p
  | e :: rest =>
      match wstep p e with
      | some q => runW q rest
      | none => none

/-- Serialized persistence of one message: the read-append-rewrite of
`_save_message_to_file` run to completion with no interleaved writer, which
net appends the record to the file. -/
def save_message_to_file (file : List Message) (msg : Message) : List Message :=
  file ++ [msg]

/-- Replay of `append_message` calls with each one's persistence write
completing before the next call (serialized writers). -/
def runAppendsPersist :
    Conversation × List Message → List (Role × String × Nat) → Conversation × List Message
  | (c, f), [] => (c, f)
  | (c, f), (r, t, ts) :: rest =>
      runAppendsPersist
        (c.append_message r t ts, save_message_to_file f ⟨r, t, ts⟩) rest

theorem msgs_append (c : Conversation) (r : Role) (t : String) (ts : Nat) (q : Role) :
    (c.append_message r t ts).msgs q =
      c.msgs q ++ (if q = r then [⟨r, t, ts⟩] else []) := by
  cases r <;> cases q <;> simp [Conversation.append_message, Conversation.msgs]

theorem runAppends_counts (ops : List (Role × String × Nat)) :
    ∀ c : Conversation,
      c.msg_count_user = c.user_messages.length →
      c.msg_count_assistant = c.assistant_messages.length →
      (runAppends c ops).msg_count_user = (runAppends c ops).user_messages.length ∧
      (runAppends c ops).msg_count_assistant = (runAppends c ops).assistant_messages.length := by
  induction ops with
  | nil => intro c hu ha; exact ⟨hu, ha⟩
  | cons op rest ih =>
      intro c hu ha
      obtain ⟨r, t, ts⟩ := op
      cases r <;>
        exact ih _ (by simp [Conversation.append_message, hu, ha])
          (by simp [Conversation.append_message, hu, ha])

/-- C4: over any finite sequence of appends starting from the fresh store,
each role's counter equals the length of that role's list, and a single
append leaves every role's existing list intact as a prefix (so no append
reorders, mutates, or deletes stored messages). -/
theorem c4_theorem :
    (∀ ops : List (Role × String × Nat),
       (runAppends Conversation.init ops).msg_count_user =
         (runAppends Conversation.init ops).user_messages.length ∧
       (runAppends Conversation.init ops).msg_count_assistant =
         (runAppends Conversation.init ops).assistant_messages.length) ∧
    (∀ (c : Conversation) (r : Role) (t : String) (ts : Nat) (q : Role),
       ∃ added, (c.append_message r t ts).msgs q = c.msgs q ++ added) :=
  ⟨fun ops => runAppends_counts ops Conversation.init rfl rfl,
   fun c r t ts q => ⟨_, msgs_append c r t ts q⟩⟩

/-- C8: `hold_listen` never changes the session baseline
`listen_start_user_count`, whether it triggers the drain (recording) or is
a no-op (idle/draining). -/
theorem c8_theorem (s : ServerState) (final_text : String) (ts : Nat) :
    (hold_listen s final_text ts).listen_start_user_count = s.listen_start_user_count := by
  cases h : s.recState <;>
    simp [hold_listen, begin_drain, finish_drain, recordingFlag, h]

/-- C5 counterexample: with exactly one stored user message,
`get_last_n_messages(user, 0)` returns that message (Python `msgs[-0:]` is
the whole list), so for `n = 0` the result is not "at most `n` messages". -/
theorem c5_counterexample :
    (Conversation.init.append_message Role.user "hello" 0).get_last_n_messages Role.user 0 =
      [⟨Role.user, "hello", 0⟩] ∧
    ¬ ((Conversation.init.append_message Role.user "hello" 0).get_last_n_messages
        Role.user 0).length ≤ 0 := by decide

/-- C5 (amended): for every `n ≥ 1`, `get_last_n_messages(role, n)` returns
at most `n` messages, a suffix of the stored list (hence in append order),
and — when the role has at least one message — a non-empty result ending
with the most recently appended message.  For `n = 0` it returns the whole
stored list instead. -/
theorem c5_theorem :
    (∀ (c : Conversation) (r : Role) (n : Nat), 1 ≤ n →
       (c.get_last_n_messages r n).length ≤ n ∧
       (∃ front, c.msgs r = front ++ c.get_last_n_messages r n) ∧
       (c.msgs r ≠ [] →
          c.get_last_n_messages r n ≠ [] ∧
          (c.get_last_n_messages r n).getLast? = (c.msgs r).getLast?)) ∧
    (∀ (c : Conversation) (r : Role), c.get_last_n_messages r 0 = c.msgs r) := by
  constructor
  · intro c r n hn
    have hn0 : ¬ n = 0 := by omega
    by_cases hm : (c.msgs r).isEmpty
    · have hnil : c.msgs r = [] := by
        cases hmm : c.msgs r with
        | nil => rfl
        | cons a l => rw [hmm] at hm; simp [List.isEmpty] at hm
      refine ⟨?_, ⟨[], ?_⟩, ?_⟩
      · simp [Conversation.get_last_n_messages, hnil]
      · simp [Conversation.get_last_n_messages, hnil]
      · intro hne; exact absurd hnil hne
    · have hout : c.get_last_n_messages r n =
          (c.msgs r).drop ((c.msgs r).length - n) := by
        simp [Conversation.get_last_n_messages, hm, hn0]
      have hlenpos : 1 ≤ (c.msgs r).length := by
        cases hmm : c.msgs r with
        | nil => rw [hmm] at hm; simp [List.isEmpty] at hm
        | cons a l => simp
      have hdlen : ((c.msgs r).drop ((c.msgs r).length - n)).length =
          (c.msgs r).length - ((c.msgs r).length - n) := List.length_drop _ _
      have hne2 : (c.msgs r).drop ((c.msgs r).length - n) ≠ [] := by
        intro hnil2
        rw [hnil2] at hdlen
        simp at hdlen
        omega
      refine ⟨?_, ⟨(c.msgs r).take ((c.msgs r).length - n), ?_⟩, ?_⟩
      · rw [hout, hdlen]; omega
      · rw [hout, List.take_append_drop]
      · intro _
        refine ⟨by rw [hout]; exact hne2, ?_⟩
        rw [hout]
        conv_rhs => rw [← List.take_append_drop ((c.msgs r).length - n) (c.msgs r)]
        rw [List.getLast?_append_of_ne_nil _ hne2]
  · intro c r
    by_cases hm : (c.msgs r).isEmpty
    · have hnil : c.msgs r = [] := by
        cases hmm : c.msgs r with
        | nil => rfl
        | cons a l => rw [hmm] at hm; simp [List.isEmpty] at hm
      simp [Conversation.get_last_n_messages, hnil]
    · simp [Conversation.get_last_n_messages, hm]

/-- C5 witness: the amended statement applied at a concrete store with one
user message and `n = 1`. -/
theorem c5_witness :
    ((Conversation.init.append_message Role.user "a" 0).get_last_n_messages
        Role.user 1).getLast? =
      ((Conversation.init.append_message Role.user "a" 0).msgs Role.user).getLast? :=
  ((c5_theorem.1 (Conversation.init.append_message Role.user "a" 0) Role.user 1
      (le_refl 1)).2.2 (by decide)).2

theorem get_last_n_user_suffix (c : Conversation) (base rest : List Message)
    (h : c.user_messages = base ++ rest) (hne : rest ≠ []) :
    c.get_last_n_messages Role.user rest.length = rest := by
  have hlen : c.user_messages.length = base.length + rest.length := by
    rw [h, List.length_append]
  have hie : c.user_messages.isEmpty = false := by
    cases hr : rest with
    | nil => exact absurd hr hne
    | cons a l =>
        rw [h, hr]
        cases base <;> simp [List.isEmpty]
  have hz : ¬ rest.length = 0 := by
    intro h0
    exact hne (List.length_eq_zero.mp h0)
  have hsub : c.user_messages.length - rest.length = base.length := by omega
  have hmsgs : c.msgs Role.user = c.user_messages := rfl
  simp only [Conversation.get_last_n_messages, hmsgs, hie, Bool.false_eq_true,
    if_false, if_neg hz]
  rw [hsub, h, List.drop_left]

/-- C10: with the baseline still unset (`listen_start_user_count = None`),
Python `None or 0` makes `get_session_user_messages` behave exactly as with
a recorded baseline of `0`, and (given the counter/length invariant) it
returns every user message ever appended; a `result()` poll in any
non-recording phase then answers with the full user history. -/
theorem c10_theorem (s : ServerState)
    (hinv : s.conv.msg_count_user = s.conv.user_messages.length) :
    get_session_user_messages { s with listen_start_user_count := none } =
      get_session_user_messages { s with listen_start_user_count := some 0 } ∧
    (s.listen_start_user_count = none →
       get_session_user_messages s = s.conv.user_messages ∧
       (recordingFlag s.recState = false →
          result_query s = some s.conv.user_messages)) := by
  have key : ∀ s2 : ServerState, s2.conv = s.conv →
      pyOrZero s2.listen_start_user_count = 0 →
      get_session_user_messages s2 = s.conv.user_messages := by
    intro s2 hconv hzero
    cases hu : s.conv.user_messages with
    | nil =>
        have h0 : s.conv.msg_count_user = 0 := by rw [hinv, hu]; rfl
        simp [get_session_user_messages, hzero, hconv, h0, hu]
    | cons a l =>
        have hpos : 0 < s.conv.msg_count_user := by
          rw [hinv, hu]; simp
        have hlast : s.conv.get_last_n_messages Role.user s.conv.msg_count_user =
            s.conv.user_messages := by
          have := get_last_n_user_suffix s.conv [] s.conv.user_messages (by simp)
            (by rw [hu]; simp)
          rw [← hinv] at this
          exact this
        simp [get_session_user_messages, hzero, hconv, hlast, hpos]
        exact hu
  constructor
  · rw [key { s with listen_start_user_count := none } rfl rfl,
        key { s with listen_start_user_count := some 0 } rfl rfl]
  · intro hb
    have hmain : get_session_user_messages s = s.conv.user_messages :=
      key s rfl (by rw [hb]; rfl)
    refine ⟨hmain, fun hflag => ?_⟩
    simp [result_query, hflag, hmain]

/-- C10 witness: the theorem applied at a concrete idle server state with an
unset baseline and one stored user message. -/
theorem c10_witness :
    get_session_user_messages
        ⟨RecState.idle, none, false, ⟨[⟨Role.user, "a", 0⟩], [], 1, 0⟩⟩ =
      [⟨Role.user, "a", 0⟩] ∧
    result_query ⟨RecState.idle, none, false, ⟨[⟨Role.user, "a", 0⟩], [], 1, 0⟩⟩ =
      some [⟨Role.user, "a", 0⟩] :=
  ⟨((c10_theorem ⟨RecState.idle, none, false, ⟨[⟨Role.user, "a", 0⟩], [], 1, 0⟩⟩
      rfl).2 rfl).1,
   ((c10_theorem ⟨RecState.idle, none, false, ⟨[⟨Role.user, "a", 0⟩], [], 1, 0⟩⟩
      rfl).2 rfl).2 rfl⟩

/-- C1 counterexample: a reachable draining state — start accepted from
idle, one utterance captured, then the `recording` flag cleared with the
capture thread still cleaning up — in which `result()` does NOT answer
`null` but already returns the session messages, because the endpoint only
tests the `recording` boolean (vosk_server.py:91), which is `False` during
the drain. -/
theorem c1_counterexample :
    (begin_drain (capture_append (trigger_listen ServerState.init) "hi" 1)).recState =
      RecState.draining ∧
    result_query (begin_drain (capture_append (trigger_listen ServerState.init) "hi" 1)) =
      some [⟨Role.user, "hi", 1⟩] ∧
    result_query (begin_drain (capture_append (trigger_listen ServerState.init) "hi" 1)) ≠
      none := by decide

/-- C1 (amended): `result()` answers `null` exactly while the `recording`
flag is set (the Recording phase); in any other phase — Idle or Draining —
with baseline `B` equal to the user count at start and `k` user messages
appended since (counter/length invariant holding), it returns exactly those
`k` messages in append order, the empty list when `k = 0`. -/
theorem c1_theorem :
    (∀ s : ServerState, s.recState = RecState.recording → result_query s = none) ∧
    (∀ (s : ServerState) (base newMsgs : List Message),
       s.recState ≠ RecState.recording →
       s.listen_start_user_count = some base.length →
       s.conv.user_messages = base ++ newMsgs →
       s.conv.msg_count_user = s.conv.user_messages.length →
       result_query s = some newMsgs) := by
  constructor
  · intro s h
    simp [result_query, recordingFlag, h]
  · intro s base newMsgs hrec hbase hmsgs hinv
    have hflag : recordingFlag s.recState = false := by
      cases h : s.recState with
      | idle => rfl
      | recording => exact absurd h hrec
      | draining => rfl
    have hcurr : s.conv.msg_count_user = base.length + newMsgs.length := by
      rw [hinv, hmsgs, List.length_append]
    cases hnm : newMsgs with
    | nil =>
        have hlen0 : newMsgs.length = 0 := by rw [hnm]; rfl
        have hz : s.conv.msg_count_user - base.length = 0 := by omega
        simp [result_query, hflag, get_session_user_messages, hbase, pyOrZero, hz]
    | cons a l =>
        have hne : newMsgs ≠ [] := by rw [hnm]; simp
        have hn : s.conv.msg_count_user - base.length = newMsgs.length := by omega
        have hpos : 0 < newMsgs.length := by rw [hnm]; simp
        have hlast := get_last_n_user_suffix s.conv base newMsgs hmsgs hne
        rw [← hnm]
        simp [result_query, hflag, get_session_user_messages, hbase, pyOrZero, hn,
          hpos, hlast]

/-- C1 witness: the amended statement applied at a concrete idle state with
baseline 1 and one user message appended after the baseline. -/
theorem c1_witness :
    result_query ⟨RecState.idle, some 1, false,
        ⟨[⟨Role.user, "a", 0⟩, ⟨Role.user, "b", 5⟩], [], 2, 0⟩⟩ =
      some [⟨Role.user, "b", 5⟩] :=
  c1_theorem.2 ⟨RecState.idle, some 1, false,
      ⟨[⟨Role.user, "a", 0⟩, ⟨Role.user, "b", 5⟩], [], 2, 0⟩⟩
    [⟨Role.user, "a", 0⟩] [⟨Role.user, "b", 5⟩] (by decide) rfl rfl rfl

theorem trigger_listen_idem (s : ServerState) :
    trigger_listen (trigger_listen s) = trigger_listen s := by
  by_cases h : (!s.is_listening && !(recordingFlag s.recState)) = true
  · have h1 : trigger_listen s =
        { s with listen_start_user_count := some s.conv.msg_count_user,
                 recState := RecState.recording } := by
      simp [trigger_listen, h]
    rw [h1]
    simp [trigger_listen, recordingFlag]
  · have h1 : trigger_listen s = s := by
      simp [trigger_listen, h]
    rw [h1, h1]

/-- C3 counterexample: a reachable draining state in which `trigger_listen`
is NOT a no-op — the guard tests only `is_listening` and the `recording`
boolean (vosk_server.py:50), which is already `False` while draining, so a
start issued then overwrites the baseline and flips the machine back to
Recording. -/
theorem c3_counterexample :
    (begin_drain (capture_append (trigger_listen ServerState.init) "hi" 1)).recState =
      RecState.draining ∧
    (trigger_listen
        (begin_drain (capture_append (trigger_listen ServerState.init) "hi" 1))).listen_start_user_count ≠
      (begin_drain (capture_append (trigger_listen ServerState.init) "hi" 1)).listen_start_user_count ∧
    (trigger_listen
        (begin_drain (capture_append (trigger_listen ServerState.init) "hi" 1))).recState =
      RecState.recording := by decide

/-- C3 (amended): a start in Idle (no start in flight) records the baseline
from the current user count and moves the machine to Recording (one capture
loop launched); a start while the `recording` flag is set changes nothing;
and `trigger_listen` is idempotent, so any run of consecutive start calls
sets the baseline exactly once — but a start in the flag-clear Draining
phase is accepted like one in Idle. -/
theorem c3_theorem :
    (∀ s : ServerState, s.is_listening = false → s.recState = RecState.idle →
       (trigger_listen s).listen_start_user_count = some s.conv.msg_count_user ∧
       (trigger_listen s).recState = RecState.recording) ∧
    (∀ s : ServerState, s.recState = RecState.recording → trigger_listen s = s) ∧
    (∀ (s : ServerState) (n : Nat), trigger_listen^[n + 1] s = trigger_listen s) := by
  refine ⟨?_, ?_, ?_⟩
  · intro s h1 h2
    constructor <;> simp [trigger_listen, h1, h2, recordingFlag]
  · intro s h
    simp [trigger_listen, h, recordingFlag]
  · intro s n
    induction n generalizing s with
    | zero => rfl
    | succ k ih =>
        rw [Function.iterate_succ_apply, ih (trigger_listen s), trigger_listen_idem]

/-- C3 witness: the amended statement applied at the initial idle state. -/
theorem c3_witness :
    (trigger_listen ServerState.init).listen_start_user_count = some 0 ∧
    (trigger_listen ServerState.init).recState = RecState.recording :=
  c3_theorem.1 ServerState.init rfl rfl

/-- C9 counterexample: two appends whose detached persistence writers both
complete, interleaved as read/read/write/write.  Both `json.dump` calls
finish (`written = true` on both tasks), yet the file holds only the second
message: the first is lost to the unserialized read-modify-write, so the
reloaded transcript does not equal the in-memory sequence. -/
theorem c9_counterexample :
    runW ⟨[], [⟨⟨Role.user, "a", 0⟩, none, false⟩, ⟨⟨Role.user, "b", 1⟩, none, false⟩]⟩
        [WEv.readFile 0, WEv.readFile 1, WEv.writeFile 0, WEv.writeFile 1] =
      some ⟨[⟨Role.user, "b", 1⟩],
            [⟨⟨Role.user, "a", 0⟩, some [], true⟩, ⟨⟨Role.user, "b", 1⟩, some [], true⟩]⟩ ∧
    (runAppends Conversation.init [(Role.user, "a", 0), (Role.user, "b", 1)]).user_messages =
      [⟨Role.user, "a", 0⟩, ⟨Role.user, "b", 1⟩] ∧
    ([⟨Role.user, "b", 1⟩] : List Message) ≠
      [⟨Role.user, "a", 0⟩, ⟨Role.user, "b", 1⟩] := by decide

theorem runAppendsPersist_spec (ops : List (Role × String × Nat)) :
    ∀ (c : Conversation) (f : List Message),
      f.filter (fun m => decide (m.role = Role.user)) = c.user_messages →
      f.filter (fun m => decide (m.role = Role.assistant)) = c.assistant_messages →
      (runAppendsPersist (c, f) ops).2 =
        f ++ ops.map (fun p => (⟨p.1, p.2.1, p.2.2⟩ : Message)) ∧
      (runAppendsPersist (c, f) ops).2.filter (fun m => decide (m.role = Role.user)) =
        (runAppendsPersist (c, f) ops).1.user_messages ∧
      (runAppendsPersist (c, f) ops).2.filter (fun m => decide (m.role = Role.assistant)) =
        (runAppendsPersist (c, f) ops).1.assistant_messages := by
  induction ops with
  | nil =>
      intro c f hu ha
      exact ⟨by simp [runAppendsPersist], hu, ha⟩
  | cons op rest ih =>
      intro c f hu ha
      obtain ⟨r, t, ts⟩ := op
      have step := ih (c.append_message r t ts) (save_message_to_file f ⟨r, t, ts⟩)
      cases r with
      | user =>
          have h1 := step
            (by simp [save_message_to_file, List.filter_append, hu,
                  Conversation.append_message])
            (by simp [save_message_to_file, List.filter_append, ha,
                  Conversation.append_message])
          refine ⟨?_, h1.2.1, h1.2.2⟩
          rw [runAppendsPersist]
          rw [h1.1]
          simp [save_message_to_file]
      | assistant =>
          have h1 := step
            (by simp [save_message_to_file, List.filter_append, hu,
                  Conversation.append_message])
            (by simp [save_message_to_file, List.filter_append, ha,
                  Conversation.append_message])
          refine ⟨?_, h1.2.1, h1.2.2⟩
          rw [runAppendsPersist]
          rw [h1.1]
          simp [save_message_to_file]

/-- C9 (amended): when each append's persistence write completes before the
next one starts (serialized writers), the persisted file after any finite
sequence of appends is exactly the append-ordered record sequence, and its
per-role partitions coincide with the in-memory lists — the round trip the
claim asserts.  Without that serialization the claim fails
(see the counterexample). -/
theorem c9_theorem (ops : List (Role × String × Nat)) :
    (runAppendsPersist (Conversation.init, []) ops).2 =
      ops.map (fun p => (⟨p.1, p.2.1, p.2.2⟩ : Message)) ∧
    (runAppendsPersist (Conversation.init, []) ops).2.filter
        (fun m => decide (m.role = Role.user)) =
      (runAppendsPersist (Conversation.init, []) ops).1.user_messages ∧
    (runAppendsPersist (Conversation.init, []) ops).2.filter
        (fun m => decide (m.role = Role.assistant)) =
      (runAppendsPersist (Conversation.init, []) ops).1.assistant_messages := by
  have h := runAppendsPersist_spec ops Conversation.init [] rfl rfl
  exact ⟨by rw [h.1]; rfl, h.2.1, h.2.2⟩

theorem gateInv_init : GateInv SysState.init := by
  refine ⟨fun _ => rfl, fun h _ => ?_, fun h _ => ?_⟩ <;> simp [SysState.init] at h

theorem gateInv_step {s q : SysState} {e : TStep} (h : tstep s e = some q)
    (hs : GateInv s) : GateInv q := by
  obtain ⟨h1, h2, h3⟩ := hs
  cases e with
  | gatePass =>
      simp only [tstep] at h
      split at h
      · rename_i hc
        obtain rfl : _ = q := Option.some.inj h
        exact ⟨fun hcl => h1 hcl, fun _ _ => hc.2, fun hpc _ => by simp at hpc⟩
      · exact absurd h (by simp)
  | readChunk =>
      simp only [tstep] at h
      split at h
      · rename_i hc
        obtain rfl : _ = q := Option.some.inj h
        refine ⟨fun hcl => ?_, fun hpc _ => by simp at hpc, fun _ hcl => ?_⟩
        · have hparts : s.cleanRun = true ∧ (!s.windowSet) = true := by
            rw [← Bool.and_eq_true]; exact hcl
          exact h1 hparts.1
        · have hparts : s.cleanRun = true ∧ (!s.windowSet) = true := by
            rw [← Bool.and_eq_true]; exact hcl
          have hws : s.windowSet = false := by
            cases hw : s.windowSet
            · rfl
            · have h4 := hparts.2
              rw [hw] at h4
              simp at h4
          show s.flag = false
          exact h2 hc hws
      · exact absurd h (by simp)
  | classifyChunk =>
      simp only [tstep] at h
      split at h
      · rename_i hc
        obtain rfl : _ = q := Option.some.inj h
        refine ⟨fun hcl => ?_, fun hpc _ => by simp at hpc, fun hpc _ => by simp at hpc⟩
        show (s.crossTalk || s.readFlag) = false
        rw [h1 hcl, h3 hc hcl]
        rfl
      · exact absurd h (by simp)
  | setFlag =>
      obtain rfl : _ = q := Option.some.inj h
      exact ⟨fun hcl => h1 hcl, fun _ hws => by simp at hws, fun hpc hcl => h3 hpc hcl⟩
  | clearFlag =>
      obtain rfl : _ = q := Option.some.inj h
      exact ⟨fun hcl => h1 hcl, fun _ _ => rfl, fun hpc hcl => h3 hpc hcl⟩

theorem runT_inv {q : SysState} :
    ∀ (trace : List TStep) (s : SysState), runT s trace = some q → GateInv s → GateInv q := by
  intro trace
  induction trace with
  | nil =>
      intro s h hs
      obtain rfl : s = q := Option.some.inj h
      exact hs
  | cons e rest ih =>
      intro s h hs
      simp only [runT] at h
      cases he : tstep s e with
      | none => rw [he] at h; exact absurd h (by simp)
      | some r =>
          rw [he] at h
          exact ih r h (gateInv_step he hs)

/-- C2 counterexample: a legal interleaving — the gate passes while the
flag is clear, `speak()` then sets `GLOBAL_SPEAKING_FLAG`, and the capture
loop goes on to read and classify the chunk — in which a chunk read while
the OutputSignal is set IS classified: the gate check and the read are not
atomic, and nothing re-checks the flag between them. -/
theorem c2_counterexample :
    runT SysState.init
        [TStep.gatePass, TStep.setFlag, TStep.readChunk, TStep.classifyChunk] =
      some ⟨true, LPC.atGate, true, true, true, false⟩ ∧
    (⟨true, LPC.atGate, true, true, true, false⟩ : SysState).crossTalk = true := by decide

/-- C2 (amended): the gate's real guarantee — in every execution in which
no `speak()` sets the OutputSignal inside a gate-to-read window (`cleanRun`
stays true), no chunk read while the signal is set is ever classified.
A chunk can be read with the signal set only when the signal was raised
after that chunk's gate check had already passed. -/
theorem c2_theorem (trace : List TStep) (s : SysState)
    (h : runT SysState.init trace = some s) (hclean : s.cleanRun = true) :
    s.crossTalk = false :=
  (runT_inv trace SysState.init h gateInv_init).1 hclean

/-- C2 witness: the amended statement applied to a concrete interleaving in
which the speaker runs strictly after the chunk's classification. -/
theorem c2_witness :
    (⟨false, LPC.atGate, false, false, true, true⟩ : SysState).crossTalk = false :=
  c2_theorem
    [TStep.gatePass, TStep.readChunk, TStep.classifyChunk, TStep.setFlag, TStep.clearFlag]
    ⟨false, LPC.atGate, false, false, true, true⟩ (by decide) rfl

theorem record_loop_halt (st : LState) (chunks : List Chunk)
    (h : (st.running && st.recording) = false) :
    record_loop st chunks = (st, none) := by
  cases chunks with
  | nil => rfl
  | cons ch rest => simp [record_loop, h]

/-- C6 counterexample: the trailing fragment "stop recording" matches a
pause phrase, yet the one flush call actually executed by `record_audio`
(voice_class.py:209-211) appends it as user content, unlike the mid-loop
rule, which treats it as a pause command — so mid-loop and Draining-flush
fragments are NOT classified by the same rule, and a pause phrase does end
up appended as content. -/
theorem c6_counterexample :
    PAUSE_COMMANDS.any (fun cmd => strContains "stop recording" cmd) = true ∧
    flush_final Conversation.init "stop recording" 5 =
      Conversation.init.append_message Role.user "stop recording" 5 ∧
    is_valid_text "stop recording" false = MidAction.pauseStop := by decide

/-- C6 (amended): mid-loop final fragments follow the claimed rule except
that the exit branch appends no sentinel — a pause phrase stops capture
without being appended; an exit phrase clears the running flag and invokes
the shutdown collaborator without appending anything; any other non-empty,
non-filler fragment is appended as a user message with the silence timer
reset.  The Draining flush, by contrast, appends every non-empty non-filler
fragment regardless of pause/exit phrases; the sentinel "/bye" append
exists only in the never-called `cleanup` variant. -/
theorem c6_theorem :
    (∀ (st : LState) (t : String) (now : Nat) (rest : List Chunk),
       st.running = true → st.recording = true →
       (t != "") = true → ¬ t ∈ INVALID_TERMS →
       PAUSE_COMMANDS.any (fun cmd => strContains t cmd) = true →
       record_loop st (⟨now, some t⟩ :: rest) = ({ st with recording := false }, none)) ∧
    (∀ (st : LState) (t : String) (now : Nat) (rest : List Chunk),
       st.running = true → st.recording = true →
       (t != "") = true → ¬ t ∈ INVALID_TERMS →
       PAUSE_COMMANDS.any (fun cmd => strContains t cmd) = false →
       EXIT_COMMANDS.any (fun cmd => strContains cmd t) = true →
       record_loop st (⟨now, some t⟩ :: rest) =
         ({ st with running := false, shutdownInvoked := true }, none)) ∧
    (∀ (st : LState) (t : String) (now : Nat) (rest : List Chunk),
       st.running = true → st.recording = true →
       (t != "") = true → ¬ t ∈ INVALID_TERMS →
       PAUSE_COMMANDS.any (fun cmd => strContains t cmd) = false →
       EXIT_COMMANDS.any (fun cmd => strContains cmd t) = false →
       record_loop st (⟨now, some t⟩ :: rest) =
         record_loop { st with conv := st.conv.append_message Role.user t now,
                               last_speech_time := now } rest) ∧
    (∀ (c : Conversation) (t : String) (ts : Nat),
       (t != "") = true → ¬ t ∈ INVALID_TERMS →
       flush_final c t ts = c.append_message Role.user t ts) ∧
    (∀ (c : Conversation) (t : String) (ts : Nat),
       (t != "") = true → ¬ t ∈ INVALID_TERMS →
       EXIT_COMMANDS.any (fun cmd => strContains cmd t) = true →
       cleanup_flush c t ts = c.append_message Role.user "/bye" ts) := by
  refine ⟨?_, ?_, ?_, ?_, ?_⟩
  · intro st t now rest hrun hrec ht hf hp
    have h1 : is_valid_text t (decide (now - st.last_speech_time > st.timeout)) =
        MidAction.pauseStop := by
      simp [is_valid_text, ht, hf, hp]
    simp only [record_loop, hrun, hrec, Bool.and_self, if_true, h1]
    exact record_loop_halt _ rest (by simp)
  · intro st t now rest hrun hrec ht hf hp he
    have h1 : is_valid_text t (decide (now - st.last_speech_time > st.timeout)) =
        MidAction.exitStop := by
      simp [is_valid_text, ht, hf, hp, he]
    simp only [record_loop, hrun, hrec, Bool.and_self, if_true, h1]
    exact record_loop_halt _ rest (by simp)
  · intro st t now rest hrun hrec ht hf hp he
    have h1 : is_valid_text t (decide (now - st.last_speech_time > st.timeout)) =
        MidAction.validText := by
      simp [is_valid_text, ht, hf, hp, he]
    simp only [record_loop, hrun, hrec, Bool.and_self, if_true, h1]
  · intro c t ts ht hf
    simp [flush_final, ht, hf]
  · intro c t ts ht hf he
    simp [cleanup_flush, ht, hf, he]

/-- C6 witness: the amended statement applied to the pause fragment
"hold it" arriving mid-loop in a live listener state. -/
theorem c6_witness :
    record_loop ⟨true, true, Conversation.init, 0, false, 20⟩ [⟨1, some "hold it"⟩] =
      (⟨true, false, Conversation.init, 0, false, 20⟩, none) :=
  c6_theorem.1 ⟨true, true, Conversation.init, 0, false, 20⟩ "hold it" 1 []
    rfl rfl (by decide) (by decide) (by decide)

/-- C7 counterexample: with the listener live, a failing `audio.open` makes
`record_audio` abort with the state untouched — the `recording` flag is
still `true`, so the machine does not return to Idle; and a recognition
error on the first chunk kills the session with the second, valid chunk and
the trailing flush text never appended — the error is not swallowed and the
loop does not continue. -/
theorem c7_counterexample :
    (record_audio ⟨true, true, Conversation.init, 0, false, 20⟩ false 0 [] "" 0 =
        (⟨true, true, Conversation.init, 0, false, 20⟩, some VErr.deviceOpen) ∧
      (⟨true, true, Conversation.init, 0, false, 20⟩ : LState).recording = true) ∧
    record_audio ⟨true, true, Conversation.init, 0, false, 20⟩ true 0
        [⟨1, none⟩, ⟨2, some "hello world"⟩] "trailing words" 3 =
      (⟨true, true, Conversation.init, 0, false, 20⟩, some VErr.recognition) := by decide

/-- C7 (amended): a device-open error propagates out of the capture thread,
aborting the session with the listener state unchanged — in particular the
`recording` flag stays set, so the machine does not return to Idle; a
per-chunk recognition error likewise propagates and aborts the loop at that
chunk, leaving the state as it stood, with the chunks after it never
processed (and the final flush skipped). -/
theorem c7_theorem :
    (∀ (st : LState) (startTime : Nat) (chunks : List Chunk)
        (final_text : String) (flushTs : Nat),
       st.running = true → st.recording = true →
       record_audio st false startTime chunks final_text flushTs =
         (st, some VErr.deviceOpen)) ∧
    (∀ (st : LState) (n : Nat) (c₂ : List Chunk),
       st.running = true → st.recording = true →
       record_loop st (⟨n, none⟩ :: c₂) = (st, some VErr.recognition)) ∧
    (∀ (st : LState) (c₁ : List Chunk) (n : Nat) (c₂ : List Chunk),
       record_loop st (c₁ ++ ⟨n, none⟩ :: c₂) = record_loop st (c₁ ++ [⟨n, none⟩])) := by
  refine ⟨?_, ?_, ?_⟩
  · intro st startTime chunks final_text flushTs hrun hrec
    simp [record_audio, hrun, hrec]
  · intro st n c₂ hrun hrec
    simp [record_loop, hrun, hrec]
  · intro st c₁ n c₂
    induction c₁ generalizing st with
    | nil =>
        by_cases h : (st.running && st.recording) = true
        · simp [record_loop, h]
        · rw [List.nil_append, List.nil_append]
          rw [record_loop_halt st _ (by revert h; cases st.running && st.recording <;> simp),
            record_loop_halt st _ (by revert h; cases st.running && st.recording <;> simp)]
    | cons ch c₁ ih =>
        by_cases h : (st.running && st.recording) = true
        · rw [List.cons_append, List.cons_append]
          cases hr : ch.recog with
          | none => simp [record_loop, h, hr]
          | some t =>
              simp only [record_loop, h, if_true, hr]
              cases is_valid_text t (decide (ch.now - st.last_speech_time > st.timeout)) <;>
                exact ih _
        · rw [List.cons_append, List.cons_append]
          rw [record_loop_halt st _ (by revert h; cases st.running && st.recording <;> simp),
            record_loop_halt st _ (by revert h; cases st.running && st.recording <;> simp)]

/-- C7 witness: the amended statement applied to a live listener whose
device open fails; the state comes back unchanged with the error. -/
theorem c7_witness :
    record_audio ⟨true, true, Conversation.init, 5, false, 20⟩ false 7
        [⟨8, some "hi"⟩] "x" 9 =
      (⟨true, true, Conversation.init, 5, false, 20⟩, some VErr.deviceOpen) :=
  c7_theorem.1 ⟨true, true, Conversation.init, 5, false, 20⟩ 7 [⟨8, some "hi"⟩] "x" 9
    rfl rfl

end VoiceAudio
